import Mathlib

/-!
Verification of the Bellweaver ingestion pipeline.

This file gives a shallow embedding, in Lean, of the parts of the
Bellweaver repository that its specification talks about:

* the JSON payloads the Compass endpoints return (`JsonVal`),
* `ApiPayload.generate_external_id` (bellweaver/db/models.py), including a
  full executable SHA-256 so the fingerprint branch is modelled exactly,
* the Pydantic models `CompassEvent` / `CalendarEventLocation` /
  `CalendarEventManager` and the normalized `Event` model, together with a
  validator modelling `model_validate` for the value shapes the feed
  produces,
* `CompassParser.parse` / `_parse_single` / `_parse_list` / `parse_safe`
  (compass-client/compass_client/parser.py),
* `compass_event_to_event` (bellweaver/mappers/compass.py),
* the `process` command loop of bellweaver/cli/commands/compass.py,
* the event-storing step of the `sync` command, over a relational model of
  the `api_payloads` table with its declared NOT NULL and unique
  constraints,
* the calendar-event envelope handling of `CompassClient` and
  `BrowserFetcher`.

Machine integers do not occur (Python ints are unbounded); SHA-256 is
computed over `Nat` with explicit reduction modulo 2^32.
-/

namespace Bellweaver

/-- JSON-like values as produced by the Compass endpoints and stored in
`ApiPayload.payload`.  Numbers in the feed are integers, so `num` carries
an `Int`. -/
inductive JsonVal where
  | null
  | bool (b : Bool)
  | num (n : Int)
  | str (s : String)
  | arr (items : List JsonVal)
  | obj (fields : List (String × JsonVal))
deriving Repr

mutual

/-- Structural equality test on JSON values. -/
def beqJson : JsonVal → JsonVal → Bool
  | .null, .null => true
  | .bool a, .bool b => a == b
  | .num a, .num b => a == b
  | .str a, .str b => a == b
  | .arr a, .arr b => beqJsonList a b
  | .obj a, .obj b => beqJsonFields a b
  | _, _ => false

/-- Structural equality test on JSON value lists. -/
def beqJsonList : List JsonVal → List JsonVal → Bool
  | [], [] => true
  | x :: xs, y :: ys => beqJson x y && beqJsonList xs ys
  | _, _ => false

/-- Structural equality test on JSON field lists. -/
def beqJsonFields : List (String × JsonVal) → List (String × JsonVal) → Bool
  | [], [] => true
  | (k1, v1) :: xs, (k2, v2) :: ys => k1 == k2 && beqJson v1 v2 && beqJsonFields xs ys
  | _, _ => false

end

mutual

theorem beqJson_iff : ∀ (x y : JsonVal), beqJson x y = true ↔ x = y
  | .null, y => by cases y <;> simp [beqJson]
  | .bool a, y => by cases y <;> simp [beqJson]
  | .num a, y => by cases y <;> simp [beqJson]
  | .str a, y => by cases y <;> simp [beqJson]
  | .arr a, y => by
      cases y <;> simp [beqJson]
      exact beqJsonList_iff a _
  | .obj a, y => by
      cases y <;> simp [beqJson]
      exact beqJsonFields_iff a _

theorem beqJsonList_iff : ∀ (xs ys : List JsonVal), beqJsonList xs ys = true ↔ xs = ys
  | [], ys => by cases ys <;> simp [beqJsonList]
  | x :: xs, ys => by
      cases ys with
      | nil => simp [beqJsonList]
      | cons y ys => simp [beqJsonList, beqJson_iff x y, beqJsonList_iff xs ys]

theorem beqJsonFields_iff :
    ∀ (xs ys : List (String × JsonVal)), beqJsonFields xs ys = true ↔ xs = ys
  | [], ys => by cases ys <;> simp [beqJsonFields]
  | (k, v) :: xs, ys => by
      cases ys with
      | nil => simp [beqJsonFields]
      | cons kv ys =>
          obtain ⟨k2, v2⟩ := kv
          simp [beqJsonFields, beqJson_iff v v2, beqJsonFields_iff xs ys, and_assoc]

end

instance : DecidableEq JsonVal := fun x y =>
  decidable_of_iff (beqJson x y = true) (beqJson_iff x y)

/-- Python truthiness (`if value:`) of a JSON value: `None`, `False`, `0`,
`""`, `[]` and `{}` are falsy. -/
def truthy : JsonVal → Bool
  | .null => false
  | .bool b => b
  | .num n => n != 0
  | .str s => s != ""
  | .arr items => !items.isEmpty
  | .obj fields => !fields.isEmpty

/-- `d.get(key)` on a Python dict represented as a field list: the first
binding wins (a real dict has no duplicate keys). -/
def dictGet (fields : List (String × JsonVal)) (key : String) : Option JsonVal :=
  fields.lookup key

/-- `d.get(key, default)`. -/
def dictGetD (fields : List (String × JsonVal)) (key : String) (dflt : JsonVal) : JsonVal :=
  (dictGet fields key).getD dflt

/-- Python `repr` of a string: quoted with a single quote unless the string
contains one and no double quote, with backslash, quote and the common
control characters escaped.  (Exotic control characters do not occur in the
payload fields this development evaluates.) -/
def pyReprString (s : String) : String :=
  let sq : Char := Char.ofNat 39   -- single quote
  let dq : Char := Char.ofNat 34   -- double quote
  let bs : Char := Char.ofNat 92   -- backslash
  let q : Char := if s.contains sq && !s.contains dq then dq else sq
  let esc : Char → String := fun c =>
    if c = bs then String.mk [bs, bs]
    else if c = q then String.mk [bs, q]
    else if c = Char.ofNat 10 then String.mk [bs, Char.ofNat 110]
    else if c = Char.ofNat 13 then String.mk [bs, Char.ofNat 114]
    else if c = Char.ofNat 9 then String.mk [bs, Char.ofNat 116]
    else String.mk [c]
  String.mk [q] ++ String.join (s.data.map esc) ++ String.mk [q]

mutual

/-- Python `repr` of a JSON value (lists and dicts render as Python
literals). -/
def pyRepr : JsonVal → String
  | .null => "None"
  | .bool true => "True"
  | .bool false => "False"
  | .num n => toString n
  | .str s => pyReprString s
  | .arr items => "[" ++ pyReprItems items ++ "]"
  | .obj fields => "\x7b" ++ pyReprFields fields ++ "\x7d"

/-- Comma-separated `repr` of list items. -/
def pyReprItems : List JsonVal → String
  | [] => ""
  | [x] => pyRepr x
  | x :: y :: rest => pyRepr x ++ ", " ++ pyReprItems (y :: rest)

/-- Comma-separated `repr` of dict entries. -/
def pyReprFields : List (String × JsonVal) → String
  | [] => ""
  | [kv] => pyReprString kv.1 ++ ": " ++ pyRepr kv.2
  | kv :: kv2 :: rest =>
      pyReprString kv.1 ++ ": " ++ pyRepr kv.2 ++ ", " ++ pyReprFields (kv2 :: rest)

end

/-- Python `str` of a JSON value, as an f-string interpolation performs it:
strings are unquoted, containers fall back to `repr`. -/
def pyStr : JsonVal → String
  | .str s => s
  | v => pyRepr v

/-- Python slice `s[:n]` on a string (by code point, as Lean strings are). -/
def pySliceStr (s : String) (n : Nat) : String :=
  String.mk (s.data.take n)

/-! ## SHA-256 over `Nat`

An executable SHA-256 (FIPS 180-4), used by
`ApiPayload.generate_external_id` through Python's `hashlib`.  Words are
naturals reduced modulo 2^32 explicitly. -/

/-- Reduce modulo 2^32. -/
def u32 (n : Nat) : Nat := n % 4294967296

/-- Right rotation of a 32-bit word. -/
def rotr (n x : Nat) : Nat := u32 ((x >>> n) ||| (x <<< (32 - n)))

/-- Bitwise complement within 32 bits. -/
def compl32 (x : Nat) : Nat := x ^^^ 4294967295

/-- SHA-256 `Ch` function. -/
def shaCh (x y z : Nat) : Nat := (x &&& y) ^^^ (compl32 x &&& z)

/-- SHA-256 `Maj` function. -/
def shaMaj (x y z : Nat) : Nat := (x &&& y) ^^^ (x &&& z) ^^^ (y &&& z)

/-- SHA-256 Σ₀. -/
def bsig0 (x : Nat) : Nat := rotr 2 x ^^^ rotr 13 x ^^^ rotr 22 x

/-- SHA-256 Σ₁. -/
def bsig1 (x : Nat) : Nat := rotr 6 x ^^^ rotr 11 x ^^^ rotr 25 x

/-- SHA-256 σ₀. -/
def ssig0 (x : Nat) : Nat := rotr 7 x ^^^ rotr 18 x ^^^ (x >>> 3)

/-- SHA-256 σ₁. -/
def ssig1 (x : Nat) : Nat := rotr 17 x ^^^ rotr 19 x ^^^ (x >>> 10)

/-- The 64 SHA-256 round constants (FIPS 180-4 §4.2.2, in decimal). -/
def shaK : List Nat :=
  [1116352408, 1899447441, 3049323471, 3921009573, 961987163, 1508970993,
   2453635748, 2870763221, 3624381080, 310598401, 607225278, 1426881987,
   1925078388, 2162078206, 2614888103, 3248222580, 3835390401, 4022224774,
   264347078, 604807628, 770255983, 1249150122, 1555081692, 1996064986,
   2554220882, 2821834349, 2952996808, 3210313671, 3336571891, 3584528711,
   113926993, 338241895, 666307205, 773529912, 1294757372, 1396182291,
   1695183700, 1986661051, 2177026350, 2456956037, 2730485921, 2820302411,
   3259730800, 3345764771, 3516065817, 3600352804, 4094571909, 275423344,
   430227734, 506948616, 659060556, 883997877, 958139571, 1322822218,
   1537002063, 1747873779, 1955562222, 2024104815, 2227730452, 2361852424,
   2428436474, 2756734187, 3204031479, 3329325298]

/-- Intermediate hash state: eight 32-bit words. -/
structure Sha256Hash where
  a : Nat
  b : Nat
  c : Nat
  d : Nat
  e : Nat
  f : Nat
  g : Nat
  h : Nat
deriving DecidableEq, Repr

/-- Initial SHA-256 hash value (FIPS 180-4 §5.3.3, in decimal). -/
def shaInit : Sha256Hash :=
  ⟨1779033703, 3144134277, 1013904242, 2773480762,
   1359893119, 2600822924, 528734635, 1541459225⟩

/-- One SHA-256 round on the working variables, for round constant `k` and
schedule word `w`. -/
def shaRound (st : Sha256Hash) (k w : Nat) : Sha256Hash :=
  let t1 := u32 (st.h + bsig1 st.e + shaCh st.e st.f st.g + k + w)
  let t2 := u32 (bsig0 st.a + shaMaj st.a st.b st.c)
  ⟨u32 (t1 + t2), st.a, st.b, st.c, u32 (st.d + t1), st.e, st.f, st.g⟩

/-- Extend a 16-word block by `k` further message-schedule words. -/
def shaExtend : List Nat → Nat → List Nat
  | ws, 0 => ws
  | ws, k + 1 =>
      let prev := shaExtend ws k
      let len := prev.length
      prev ++ [u32 (prev.getD (len - 16) 0 + ssig0 (prev.getD (len - 15) 0) +
                    prev.getD (len - 7) 0 + ssig1 (prev.getD (len - 2) 0))]

/-- Compress one 64-word schedule into the hash state. -/
def shaCompress (st : Sha256Hash) (ws : List Nat) : Sha256Hash :=
  let fin := (List.zip shaK ws).foldl (fun s kw => shaRound s kw.1 kw.2) st
  ⟨u32 (st.a + fin.a), u32 (st.b + fin.b), u32 (st.c + fin.c), u32 (st.d + fin.d),
   u32 (st.e + fin.e), u32 (st.f + fin.f), u32 (st.g + fin.g), u32 (st.h + fin.h)⟩

/-- Big-endian bytes to 32-bit words, four bytes each. -/
def bytesToWords : List Nat → List Nat
  | b0 :: b1 :: b2 :: b3 :: rest =>
      (b0 * 16777216 + b1 * 65536 + b2 * 256 + b3) :: bytesToWords rest
  | _ => []

/-- The eight big-endian bytes of the 64-bit message bit length. -/
def lenBytes (n : Nat) : List Nat :=
  [(n >>> 56) % 256, (n >>> 48) % 256, (n >>> 40) % 256, (n >>> 32) % 256,
   (n >>> 24) % 256, (n >>> 16) % 256, (n >>> 8) % 256, n % 256]

/-- SHA-256 padding: a `0x80` byte, zeros to 56 mod 64, then the bit
length. -/
def shaPad (msg : List Nat) : List Nat :=
  let zeros := (64 - ((msg.length + 9) % 64)) % 64
  msg ++ [128] ++ List.replicate zeros 0 ++ lenBytes (8 * msg.length)

/-- Split a byte list into 64-byte chunks. -/
def chunks64 (l : List Nat) : List (List Nat) :=
  if h : l = [] then [] else l.take 64 :: chunks64 (l.drop 64)
termination_by l.length
decreasing_by
  have hp : 0 < l.length := List.length_pos.mpr h
  simp only [List.length_drop]
  omega

/-- UTF-8 encoding of one character. -/
def utf8Bytes (c : Char) : List Nat :=
  let n := c.toNat
  if n < 128 then [n]
  else if n < 2048 then [192 + n / 64, 128 + n % 64]
  else if n < 65536 then [224 + n / 4096, 128 + (n / 64) % 64, 128 + n % 64]
  else [240 + n / 262144, 128 + (n / 4096) % 64, 128 + (n / 64) % 64, 128 + n % 64]

/-- UTF-8 bytes of a string, as `str.encode()` produces them. -/
def strBytes (s : String) : List Nat :=
  (s.data.map utf8Bytes).flatten

/-- Hex digit characters, lowercase as `hexdigest` uses. -/
def hexChar (n : Nat) : Char :=
  if n < 10 then Char.ofNat (48 + n) else Char.ofNat (87 + n)

/-- The eight hex characters of one 32-bit word. -/
def hex8chars (x : Nat) : List Char :=
  (List.range 8).map fun i => hexChar ((x >>> (4 * (7 - i))) % 16)

/-- `hashlib.sha256(s.encode()).hexdigest()`: the 64-character lowercase
hex digest of the UTF-8 bytes of `s`. -/
def sha256hex (s : String) : String :=
  let blocks := chunks64 (shaPad (strBytes s))
  let st := blocks.foldl (fun st c => shaCompress st (shaExtend (bytesToWords c) 48)) shaInit
  String.mk (hex8chars st.a ++ hex8chars st.b ++ hex8chars st.c ++ hex8chars st.d ++
             hex8chars st.e ++ hex8chars st.f ++ hex8chars st.g ++ hex8chars st.h)

/-- Python `str(sorted(payload.items()))`: entries sorted by key and
rendered as a list of pairs.  (Keys of a dict are distinct, so comparison
never reaches the values.) -/
def sortedItemsRepr (fields : List (String × JsonVal)) : String :=
  let sorted := fields.mergeSort fun x y => decide (x.1 ≤ y.1)
  "[" ++ String.intercalate ", "
    (sorted.map fun kv => "(" ++ pyReprString kv.1 ++ ", " ++ pyRepr kv.2 ++ ")") ++ "]"

/-- `ApiPayload.generate_external_id` (bellweaver/db/models.py): the
natural `instanceId` when truthy, else the first 32 hex characters of the
SHA-256 of `f"{activity_id}:{start}:{guid}"`; other adapters hash the
sorted item list. -/
def generate_external_id (payload : List (String × JsonVal))
    (adapter_id : String := "compass") : String :=
  if adapter_id = "compass" then
    let instance_id := dictGetD payload "instanceId" .null
    if truthy instance_id then pyStr instance_id
    else
      let activity_id := dictGetD payload "activityId" (.str "")
      let start := dictGetD payload "start" (.str "")
      let guid := dictGetD payload "guid" (.str "")
      let hash_input := pyStr activity_id ++ ":" ++ pyStr start ++ ":" ++ pyStr guid
      pySliceStr (sha256hex hash_input) 32
  else
    pySliceStr (sha256hex (sortedItemsRepr payload)) 32

/-! ## Datetimes

Pydantic parses the feed's ISO-like datetime strings (with or without a
UTC offset) into `datetime` values; this embedding keeps the parsed
components.  Numeric-epoch datetimes do not occur in this feed and are
rejected. -/

/-- A parsed datetime: calendar fields plus an optional UTC offset in
minutes. -/
structure PyDateTime where
  year : Nat
  month : Nat
  day : Nat
  hour : Nat
  minute : Nat
  second : Nat
  microsecond : Nat
  utcOffsetMinutes : Option Int
deriving DecidableEq, Repr

/-- Value of a decimal digit character. -/
def digitVal (c : Char) : Option Nat :=
  if c.isDigit then some (c.toNat - 48) else none

/-- Two decimal digits. -/
def digits2 (a b : Char) : Option Nat := do
  let x ← digitVal a
  let y ← digitVal b
  pure (10 * x + y)

/-- Four decimal digits. -/
def digits4 (a b c d : Char) : Option Nat := do
  let x ← digits2 a b
  let y ← digits2 c d
  pure (100 * x + y)

/-- Whether a year is a leap year. -/
def isLeapYear (y : Nat) : Bool :=
  (y % 4 = 0 && y % 100 ≠ 0) || y % 400 = 0

/-- Days in a month. -/
def daysInMonth (y mo : Nat) : Nat :=
  if mo = 2 then (if isLeapYear y then 29 else 28)
  else if mo = 4 || mo = 6 || mo = 9 || mo = 11 then 30
  else 31

/-- Fractional-second part: a dot followed by up to six digits, scaled to
microseconds; returns the microseconds and the unconsumed rest. -/
def parseFrac : List Char → Option (Nat × List Char)
  | '.' :: rest =>
      let digits := rest.takeWhile Char.isDigit
      let remaining := rest.dropWhile Char.isDigit
      if digits.isEmpty || digits.length > 6 then none
      else do
        let v ← (digits.foldlM (fun acc c => (digitVal c).map fun d => 10 * acc + d) 0)
        pure (v * 10 ^ (6 - digits.length), remaining)
  | rest => some (0, rest)

/-- UTC-offset suffix: empty, `Z`, or `±HH:MM` / `±HHMM`. -/
def parseOffset : List Char → Option (Option Int)
  | [] => some none
  | ['Z'] => some (some 0)
  | ['+', h1, h2, ':', m1, m2] => do
      let h ← digits2 h1 h2
      let m ← digits2 m1 m2
      pure (some ((h * 60 + m : Nat) : Int))
  | ['-', h1, h2, ':', m1, m2] => do
      let h ← digits2 h1 h2
      let m ← digits2 m1 m2
      pure (some (-((h * 60 + m : Nat) : Int)))
  | ['+', h1, h2, m1, m2] => do
      let h ← digits2 h1 h2
      let m ← digits2 m1 m2
      pure (some ((h * 60 + m : Nat) : Int))
  | ['-', h1, h2, m1, m2] => do
      let h ← digits2 h1 h2
      let m ← digits2 m1 m2
      pure (some (-((h * 60 + m : Nat) : Int)))
  | _ => none

/-- Time-of-day and suffix of an ISO datetime, given the date fields. -/
def parseTimePart (y mo d : Nat) : List Char → Option PyDateTime
  | h1 :: h2 :: ':' :: mi1 :: mi2 :: ':' :: s1 :: s2 :: rest => do
      let h ← digits2 h1 h2
      let mi ← digits2 mi1 mi2
      let s ← digits2 s1 s2
      if h ≤ 23 && mi ≤ 59 && s ≤ 59 then
        let (micro, rest2) ← parseFrac rest
        let off ← parseOffset rest2
        pure ⟨y, mo, d, h, mi, s, micro, off⟩
      else none
  | _ => none

/-- Parse an ISO-like datetime string (`YYYY-MM-DD`, optionally followed by
`T` or a space and `HH:MM:SS[.ffffff][Z|±HH:MM]`). -/
def parseIsoDatetime (s : String) : Option PyDateTime :=
  match s.data with
  | y1 :: y2 :: y3 :: y4 :: '-' :: m1 :: m2 :: '-' :: d1 :: d2 :: rest => do
      let y ← digits4 y1 y2 y3 y4
      let mo ← digits2 m1 m2
      let d ← digits2 d1 d2
      if 1 ≤ mo && mo ≤ 12 && 1 ≤ d && d ≤ daysInMonth y mo then
        match rest with
        | [] => pure ⟨y, mo, d, 0, 0, 0, 0, none⟩
        | sep :: t =>
            if sep = 'T' || sep = ' ' then parseTimePart y mo d t else none
      else none
  | _ => none

/-! ## Pydantic models and validation

`CompassEvent`, `CalendarEventLocation` and `CalendarEventManager`
(bellweaver/models/compass.py, also shipped in the compass-client
package), and the normalized `Event` (bellweaver/models/event.py).
`model_validate` is modelled by explicit per-field lookup (alias first,
then field name, as `populate_by_name=True` allows), type coercion for the
value shapes this feed produces, and collection of all field errors. -/

/-- One entry of a Pydantic `ValidationError.errors()` list. -/
structure FieldError where
  loc : String
  type : String
  msg : String
deriving DecidableEq, Repr

/-- A Pydantic `ValidationError`: the structured field errors.
`error_count()` is the length of `errors`. -/
structure ValidationError where
  errors : List FieldError
deriving DecidableEq, Repr

/-- Coerce to `str`. -/
def asStr : JsonVal → Except String String
  | .str s => .ok s
  | _ => .error "string_type"

/-- Coerce to `int` (lax mode also accepts digit strings). -/
def asInt : JsonVal → Except String Int
  | .num n => .ok n
  | .str s =>
      match s.toInt? with
      | some n => .ok n
      | none => .error "int_parsing"
  | _ => .error "int_type"

/-- Coerce to `bool` (lax mode also accepts 0/1 and the usual strings). -/
def asBool : JsonVal → Except String Bool
  | .bool b => .ok b
  | .num n => if n = 0 then .ok false else if n = 1 then .ok true else .error "bool_parsing"
  | .str s =>
      let l := s.toLower
      if l = "true" || l = "t" || l = "yes" || l = "on" || l = "y" || l = "1" then .ok true
      else if l = "false" || l = "f" || l = "no" || l = "off" || l = "n" || l = "0" then .ok false
      else .error "bool_parsing"
  | _ => .error "bool_type"

/-- Coerce to `datetime` from the feed's ISO-like strings. -/
def asDatetime : JsonVal → Except String PyDateTime
  | .str s =>
      match parseIsoDatetime s with
      | some dt => .ok dt
      | none => .error "datetime_parsing"
  | _ => .error "datetime_type"

/-- Look a field up by validation alias, then by field name
(`populate_by_name=True`). -/
def fieldLookup (o : List (String × JsonVal)) (al nm : String) : Option JsonVal :=
  match dictGet o al with
  | some v => some v
  | none => dictGet o nm

/-- A required field. -/
def reqField (o : List (String × JsonVal)) (al nm : String)
    (coe : JsonVal → Except String α) : Except FieldError α :=
  match fieldLookup o al nm with
  | none => .error ⟨nm, "missing", "Field required"⟩
  | some v =>
      match coe v with
      | .ok a => .ok a
      | .error t => .error ⟨nm, t, "Invalid value"⟩

/-- An `Optional[...]` field defaulting to `None`. -/
def optField (o : List (String × JsonVal)) (al nm : String)
    (coe : JsonVal → Except String α) : Except FieldError (Option α) :=
  match fieldLookup o al nm with
  | none => .ok none
  | some .null => .ok none
  | some v =>
      match coe v with
      | .ok a => .ok (some a)
      | .error t => .error ⟨nm, t, "Invalid value"⟩

/-- A non-optional field with a non-`None` default. -/
def defField (o : List (String × JsonVal)) (al nm : String)
    (coe : JsonVal → Except String α) (d : α) : Except FieldError α :=
  match fieldLookup o al nm with
  | none => .ok d
  | some v =>
      match coe v with
      | .ok a => .ok a
      | .error t => .error ⟨nm, t, "Invalid value"⟩

/-- The errors contributed by one field check. -/
def errOf : Except FieldError α → List FieldError
  | .ok _ => []
  | .error e => [e]

/-- Location information for a calendar event. -/
structure CalendarEventLocation where
  type : String
  covering_location_id : Option Int
  covering_location_name : Option String
  location_id : Int
  location_name : Option String
deriving DecidableEq, Repr

/-- Manager information for a calendar event. -/
structure CalendarEventManager where
  type : String
  covering_import_identifier : Option String
  covering_user_id : Option Int
  manager_import_identifier : String
  manager_user_id : Int
deriving DecidableEq, Repr

/-- `CalendarEventLocation.model_validate`. -/
def validateLocation (raw : JsonVal) : Except ValidationError CalendarEventLocation :=
  match raw with
  | .obj o =>
      let f_type := defField o "__type" "type" asStr
        "CalendarEventLocation:http://jdlf.com.au/ns/data/calendar"
      let f_cli := optField o "coveringLocationId" "covering_location_id" asInt
      let f_cln := optField o "coveringLocationName" "covering_location_name" asStr
      let f_lid := reqField o "locationId" "location_id" asInt
      let f_lnm := optField o "locationName" "location_name" asStr
      let errs := errOf f_type ++ errOf f_cli ++ errOf f_cln ++ errOf f_lid ++ errOf f_lnm
      if errs.isEmpty then
        match f_type, f_cli, f_cln, f_lid, f_lnm with
        | .ok a, .ok b, .ok c, .ok d, .ok e => .ok ⟨a, b, c, d, e⟩
        | _, _, _, _, _ => .error ⟨errs⟩
      else .error ⟨errs⟩
  | _ => .error ⟨[⟨"", "model_type", "Input should be a valid dictionary"⟩]⟩

/-- `CalendarEventManager.model_validate`. -/
def validateManager (raw : JsonVal) : Except ValidationError CalendarEventManager :=
  match raw with
  | .obj o =>
      let f_type := defField o "__type" "type" asStr
        "CalendarEventManager:http://jdlf.com.au/ns/data/calendar"
      let f_cii := optField o "coveringImportIdentifier" "covering_import_identifier" asStr
      let f_cui := optField o "coveringUserId" "covering_user_id" asInt
      let f_mii := reqField o "managerImportIdentifier" "manager_import_identifier" asStr
      let f_mui := reqField o "managerUserId" "manager_user_id" asInt
      let errs := errOf f_type ++ errOf f_cii ++ errOf f_cui ++ errOf f_mii ++ errOf f_mui
      if errs.isEmpty then
        match f_type, f_cii, f_cui, f_mii, f_mui with
        | .ok a, .ok b, .ok c, .ok d, .ok e => .ok ⟨a, b, c, d, e⟩
        | _, _, _, _, _ => .error ⟨errs⟩
      else .error ⟨errs⟩
  | _ => .error ⟨[⟨"", "model_type", "Input should be a valid dictionary"⟩]⟩

/-- A list of nested location models. -/
def asLocations (v : JsonVal) : Except String (List CalendarEventLocation) :=
  match v with
  | .arr items =>
      match items.mapM validateLocation with
      | .ok l => .ok l
      | .error _ => .error "nested_model"
  | _ => .error "list_type"

/-- A list of nested manager models. -/
def asManagers (v : JsonVal) : Except String (List CalendarEventManager) :=
  match v with
  | .arr items =>
      match items.mapM validateManager with
      | .ok l => .ok l
      | .error _ => .error "nested_model"
  | _ => .error "list_type"

/-- Compass calendar event model (bellweaver/models/compass.py). -/
structure CompassEvent where
  type : String
  activity_id : Int
  activity_import_identifier : Option String
  activity_type : Int
  all_day : Bool
  attendance_mode : Int
  attendee_user_id : Int
  background_color : String
  calendar_id : Int
  category_ids : Option String
  comment : Option String
  description : String
  event_setup_status : Option Int
  finish : PyDateTime
  guid : String
  in_class_status : Option Int
  instance_id : String
  is_recurring : Bool
  learning_task_activity_id : Option Int
  learning_task_id : Option Int
  lesson_plan_configured : Bool
  location : Option String
  locations : Option (List CalendarEventLocation)
  long_title : String
  long_title_without_time : String
  manager_id : Int
  managers : Option (List CalendarEventManager)
  minutes_meeting_id : Option Int
  period : Option String
  recurring_finish : Option PyDateTime
  recurring_start : Option PyDateTime
  repeat_days : Option String
  repeat_forever : Bool
  repeat_frequency : Int
  repeat_until : Option PyDateTime
  roll_marked : Bool
  running_status : Int
  session_name : Option String
  start : PyDateTime
  subject_id : Option Int
  subject_long_name : Option String
  target_student_id : Int
  teaching_days_only : Bool
  text_color : Option String
  title : String
  unavailable_pd : Option Int
deriving DecidableEq, Repr

/-- `CompassEvent.model_validate`: every field is looked up (alias first),
coerced, and all field errors are collected, as Pydantic reports them. -/
def validateCompassEvent (raw : JsonVal) : Except ValidationError CompassEvent :=
  match raw with
  | .obj o =>
      let f_type := defField o "__type" "type" asStr
        "CalendarTransport:http://jdlf.com.au/ns/data/calendar"
      let f_activity_id := reqField o "activityId" "activity_id" asInt
      let f_aii := optField o "activityImportIdentifier" "activity_import_identifier" asStr
      let f_activity_type := reqField o "activityType" "activity_type" asInt
      let f_all_day := reqField o "allDay" "all_day" asBool
      let f_attendance_mode := reqField o "attendanceMode" "attendance_mode" asInt
      let f_attendee_user_id := reqField o "attendeeUserId" "attendee_user_id" asInt
      let f_background_color := reqField o "backgroundColor" "background_color" asStr
      let f_calendar_id := reqField o "calendarId" "calendar_id" asInt
      let f_category_ids := optField o "categoryIds" "category_ids" asStr
      let f_comment := optField o "comment" "comment" asStr
      let f_description := reqField o "description" "description" asStr
      let f_ess := optField o "eventSetupStatus" "event_setup_status" asInt
      let f_finish := reqField o "finish" "finish" asDatetime
      let f_guid := reqField o "guid" "guid" asStr
      let f_ics := optField o "inClassStatus" "in_class_status" asInt
      let f_instance_id := reqField o "instanceId" "instance_id" asStr
      let f_is_recurring := reqField o "isRecurring" "is_recurring" asBool
      let f_ltai := optField o "learningTaskActivityId" "learning_task_activity_id" asInt
      let f_lti := optField o "learningTaskId" "learning_task_id" asInt
      let f_lpc := reqField o "lessonPlanConfigured" "lesson_plan_configured" asBool
      let f_location := optField o "location" "location" asStr
      let f_locations := optField o "locations" "locations" asLocations
      let f_long_title := reqField o "longTitle" "long_title" asStr
      let f_ltwt := reqField o "longTitleWithoutTime" "long_title_without_time" asStr
      let f_manager_id := reqField o "managerId" "manager_id" asInt
      let f_managers := optField o "managers" "managers" asManagers
      let f_mmi := optField o "minutesMeetingId" "minutes_meeting_id" asInt
      let f_period := optField o "period" "period" asStr
      let f_recurring_finish := optField o "recurringFinish" "recurring_finish" asDatetime
      let f_recurring_start := optField o "recurringStart" "recurring_start" asDatetime
      let f_repeat_days := optField o "repeatDays" "repeat_days" asStr
      let f_repeat_forever := reqField o "repeatForever" "repeat_forever" asBool
      let f_repeat_frequency := reqField o "repeatFrequency" "repeat_frequency" asInt
      let f_repeat_until := optField o "repeatUntil" "repeat_until" asDatetime
      let f_roll_marked := reqField o "rollMarked" "roll_marked" asBool
      let f_running_status := reqField o "runningStatus" "running_status" asInt
      let f_session_name := optField o "sessionName" "session_name" asStr
      let f_start := reqField o "start" "start" asDatetime
      let f_subject_id := optField o "subjectId" "subject_id" asInt
      let f_sln := optField o "subjectLongName" "subject_long_name" asStr
      let f_tsi := reqField o "targetStudentId" "target_student_id" asInt
      let f_tdo := reqField o "teachingDaysOnly" "teaching_days_only" asBool
      let f_text_color := optField o "textColor" "text_color" asStr
      let f_title := reqField o "title" "title" asStr
      let f_upd := optField o "unavailablePd" "unavailable_pd" asInt
      let errs :=
        errOf f_type ++ errOf f_activity_id ++ errOf f_aii ++ errOf f_activity_type ++
        errOf f_all_day ++ errOf f_attendance_mode ++ errOf f_attendee_user_id ++
        errOf f_background_color ++ errOf f_calendar_id ++ errOf f_category_ids ++
        errOf f_comment ++ errOf f_description ++ errOf f_ess ++ errOf f_finish ++
        errOf f_guid ++ errOf f_ics ++ errOf f_instance_id ++ errOf f_is_recurring ++
        errOf f_ltai ++ errOf f_lti ++ errOf f_lpc ++ errOf f_location ++
        errOf f_locations ++ errOf f_long_title ++ errOf f_ltwt ++ errOf f_manager_id ++
        errOf f_managers ++ errOf f_mmi ++ errOf f_period ++ errOf f_recurring_finish ++
        errOf f_recurring_start ++ errOf f_repeat_days ++ errOf f_repeat_forever ++
        errOf f_repeat_frequency ++ errOf f_repeat_until ++ errOf f_roll_marked ++
        errOf f_running_status ++ errOf f_session_name ++ errOf f_start ++
        errOf f_subject_id ++ errOf f_sln ++ errOf f_tsi ++ errOf f_tdo ++
        errOf f_text_color ++ errOf f_title ++ errOf f_upd
      let built : Except FieldError CompassEvent := do
        let v_type ← f_type
        let v_activity_id ← f_activity_id
        let v_aii ← f_aii
        let v_activity_type ← f_activity_type
        let v_all_day ← f_all_day
        let v_attendance_mode ← f_attendance_mode
        let v_attendee_user_id ← f_attendee_user_id
        let v_background_color ← f_background_color
        let v_calendar_id ← f_calendar_id
        let v_category_ids ← f_category_ids
        let v_comment ← f_comment
        let v_description ← f_description
        let v_ess ← f_ess
        let v_finish ← f_finish
        let v_guid ← f_guid
        let v_ics ← f_ics
        let v_instance_id ← f_instance_id
        let v_is_recurring ← f_is_recurring
        let v_ltai ← f_ltai
        let v_lti ← f_lti
        let v_lpc ← f_lpc
        let v_location ← f_location
        let v_locations ← f_locations
        let v_long_title ← f_long_title
        let v_ltwt ← f_ltwt
        let v_manager_id ← f_manager_id
        let v_managers ← f_managers
        let v_mmi ← f_mmi
        let v_period ← f_period
        let v_recurring_finish ← f_recurring_finish
        let v_recurring_start ← f_recurring_start
        let v_repeat_days ← f_repeat_days
        let v_repeat_forever ← f_repeat_forever
        let v_repeat_frequency ← f_repeat_frequency
        let v_repeat_until ← f_repeat_until
        let v_roll_marked ← f_roll_marked
        let v_running_status ← f_running_status
        let v_session_name ← f_session_name
        let v_start ← f_start
        let v_subject_id ← f_subject_id
        let v_sln ← f_sln
        let v_tsi ← f_tsi
        let v_tdo ← f_tdo
        let v_text_color ← f_text_color
        let v_title ← f_title
        let v_upd ← f_upd
        pure ⟨v_type, v_activity_id, v_aii, v_activity_type, v_all_day, v_attendance_mode,
              v_attendee_user_id, v_background_color, v_calendar_id, v_category_ids,
              v_comment, v_description, v_ess, v_finish, v_guid, v_ics, v_instance_id,
              v_is_recurring, v_ltai, v_lti, v_lpc, v_location, v_locations, v_long_title,
              v_ltwt, v_manager_id, v_managers, v_mmi, v_period, v_recurring_finish,
              v_recurring_start, v_repeat_days, v_repeat_forever, v_repeat_frequency,
              v_repeat_until, v_roll_marked, v_running_status, v_session_name, v_start,
              v_subject_id, v_sln, v_tsi, v_tdo, v_text_color, v_title, v_upd⟩
      if errs.isEmpty then
        match built with
        | .ok evt => .ok evt
        | .error e => .error ⟨[e]⟩
      else .error ⟨errs⟩
  | _ => .error ⟨[⟨"", "model_type", "Input should be a valid dictionary"⟩]⟩

/-- Platform-agnostic normalized event (bellweaver/models/event.py); the
`created_at`/`updated_at` defaults live on the database rows, not here. -/
structure Event where
  title : String
  start : PyDateTime
  «end» : PyDateTime
  description : Option String
  location : Option String
  all_day : Bool
  organizer : Option String
  attendees : List String
  status : Option String
deriving DecidableEq, Repr

/-- Python truthiness of an `Optional[str]`. -/
def pyStrOptTruthy : Option String → Bool
  | none => false
  | some s => s != ""

/-- Python truthiness of the `Optional[list]` of locations. -/
def pyLocationsTruthy : Option (List CalendarEventLocation) → Bool
  | none => false
  | some l => !l.isEmpty

/-- The `status_map` dict of the mapper, accessed with `.get(..., None)`. -/
def status_map (running_status : Int) : Option String :=
  if running_status = 0 then some "EventScheduled"
  else if running_status = 1 then some "EventCancelled"
  else if running_status = 2 then some "EventPostponed"
  else none

/-- `compass_event_to_event` (bellweaver/mappers/compass.py). -/
def compass_event_to_event (compass_event : CompassEvent) : Event :=
  let location0 := compass_event.location
  let location :=
    if !pyStrOptTruthy location0 && pyLocationsTruthy compass_event.locations then
      match compass_event.locations with
      | some (first :: _) => first.location_name
      | _ => location0
    else location0
  -- the managers branch of the source only contains `pass`
  let attendees : List String := []
  let status := status_map compass_event.running_status
  { title := compass_event.title
    start := compass_event.start
    «end» := compass_event.finish
    description := some compass_event.description
    location := location
    all_day := compass_event.all_day
    organizer := none
    attendees := attendees
    status := status }

/-! ## The generic parser (compass-client/compass_client/parser.py) -/

/-- A Pydantic model class as the generic parser sees it: a class name and
its `model_validate`. -/
structure PydanticModel (T : Type) where
  name : String
  validate : JsonVal → Except ValidationError T

/-- The `CompassEvent` model as passed to the parser. -/
def CompassEventModel : PydanticModel CompassEvent :=
  ⟨"CompassEvent", validateCompassEvent⟩

/-- `CompassParseError` (compass_client/exceptions.py): message, the raw
data that failed, and the structured validation errors. -/
structure CompassParseError where
  message : String
  raw_data : JsonVal
  validation_errors : List FieldError
deriving DecidableEq, Repr

namespace CompassParser

/-- `CompassParser._parse_single`. -/
def parse_single (model : PydanticModel T) (raw : JsonVal) : Except CompassParseError T :=
  match model.validate raw with
  | .ok v => .ok v
  | .error e =>
      .error ⟨"Failed to parse " ++ model.name ++ ": " ++ toString e.errors.length ++
              " validation error(s)", raw, e.errors⟩

/-- The comprehension `[model.model_validate(item) for item in raw_list]`:
validate items in order, stopping at the first `ValidationError`. -/
def validateSeq (model : PydanticModel T) : List JsonVal → Except ValidationError (List T)
  | [] => .ok []
  | x :: xs =>
      match model.validate x with
      | .error e => .error e
      | .ok t =>
          match validateSeq model xs with
          | .error e => .error e
          | .ok rest => .ok (t :: rest)

/-- The first failure of `[model.model_validate(item) for item in raw_list]`,
with its index and item. -/
def firstFailure (model : PydanticModel T) :
    List JsonVal → Nat → Option (Nat × JsonVal × ValidationError)
  | [], _ => none
  | x :: xs, idx =>
      match model.validate x with
      | .ok _ => firstFailure model xs (idx + 1)
      | .error e => some (idx, x, e)

/-- `CompassParser._parse_list` (strict mode): the comprehension validates
items in order and stops at the first `ValidationError`; the except-block
rescans for the failing index and raises carrying that item and the errors
of the first failure.  Validation being deterministic, the rescan always
finds the index; the list-level fallback raise of the source is the `none`
branch. -/
def parse_list (model : PydanticModel T) (raw_list : List JsonVal) :
    Except CompassParseError (List T) :=
  match validateSeq model raw_list with
  | .ok items => .ok items
  | .error e =>
      match firstFailure model raw_list 0 with
      | some (idx, item, _) =>
          .error ⟨"Failed to parse " ++ model.name ++ " at index " ++ toString idx ++ ": " ++
                  toString e.errors.length ++ " validation error(s)", item, e.errors⟩
      | none =>
          .error ⟨"Failed to parse " ++ model.name ++ " list: " ++
                  toString e.errors.length ++ " validation error(s)", .arr raw_list, e.errors⟩

/-- `CompassParser.parse`: dispatch on whether the raw data is a list. -/
def parse (model : PydanticModel T) (raw : JsonVal) :
    Except CompassParseError (T ⊕ List T) :=
  match raw with
  | .arr items => (parse_list model items).map Sum.inr
  | v => (parse_single model v).map Sum.inl

/-- The loop of `CompassParser.parse_safe`.  The source's
`if not skip_invalid: continue` sits at the very end of the loop body, so
both branches proceed identically; the branch is kept to mirror the
code. -/
def parseSafeGo (model : PydanticModel T) (skip_invalid : Bool) :
    Nat → List JsonVal → List T × List CompassParseError →
    List T × List CompassParseError
  | _, [], acc => acc
  | idx, raw_item :: rest, (valid_items, errors) =>
      match model.validate raw_item with
      | .ok item =>
          parseSafeGo model skip_invalid (idx + 1) rest (valid_items ++ [item], errors)
      | .error e =>
          let err : CompassParseError :=
            ⟨"Failed to parse " ++ model.name ++ " at index " ++ toString idx ++ ": " ++
             toString e.errors.length ++ " validation error(s)", raw_item, e.errors⟩
          if !skip_invalid then
            parseSafeGo model skip_invalid (idx + 1) rest (valid_items, errors ++ [err])
          else
            parseSafeGo model skip_invalid (idx + 1) rest (valid_items, errors ++ [err])

/-- `CompassParser.parse_safe` (tolerant mode). -/
def parse_safe (model : PydanticModel T) (raw_list : List JsonVal)
    (skip_invalid : Bool := true) : List T × List CompassParseError :=
  parseSafeGo model skip_invalid 0 raw_list ([], [])

end CompassParser

/-! ## The persisted ledger (bellweaver/db/models.py) -/

namespace Db

/-- A row of the `api_payloads` table.  `external_id` is declared NOT NULL
and `(adapter_id, method_name, external_id)` carries the unique constraint
`uix_api_payload_external`; `none` models a column the ORM object never
set.  The uuid primary-key default is not modelled (no theorem observes
it). -/
structure ApiPayload where
  id : String
  adapter_id : String
  method_name : String
  batch_id : String
  external_id : Option String
  payload : JsonVal
  created_at : Nat
  updated_at : Nat
deriving DecidableEq, Repr

/-- `ApiPayload.get_payload`: the stored payload when it is a dict, else
`\x7b\x7d`. -/
def ApiPayload.get_payload (r : ApiPayload) : JsonVal :=
  match r.payload with
  | .obj o => .obj o
  | _ => .obj []

/-- A row of the `events` table (the ORM `Event`); timestamps are modelled
as abstract instants (`Nat`). -/
structure Event where
  api_payload_id : String
  title : String
  start : PyDateTime
  «end» : PyDateTime
  description : Option String
  location : Option String
  all_day : Bool
  organizer : Option String
  attendees : List String
  status : Option String
  created_at : Nat
  updated_at : Nat
deriving DecidableEq, Repr

end Db

/-! ## The `process` command (bellweaver/cli/commands/compass.py) -/

/-- Running totals and the events table during one `process` run. -/
structure ProcessSummary where
  processed : Nat
  created : Nat
  updated : Nat
  errors : Nat
  events : List Db.Event
deriving DecidableEq, Repr

/-- The update branch of the `process` loop: overwrite the derived fields
of the first event row whose `api_payload_id` matches and bump
`updated_at` (SQLAlchemy `.first()` picks the first match). -/
def updateFirst : List Db.Event → String → Event → Nat → List Db.Event
  | [], _, _, _ => []
  | r :: rest, pid, d, now =>
      if r.api_payload_id = pid then
        { r with
          title := d.title
          start := d.start
          «end» := d.«end»
          description := d.description
          location := d.location
          all_day := d.all_day
          organizer := d.organizer
          attendees := d.attendees
          status := d.status
          updated_at := now } :: rest
      else r :: updateFirst rest pid d now

/-- The create branch of the `process` loop: a fresh event row, timestamps
from the column defaults. -/
def newEventRow (pid : String) (d : Event) (now : Nat) : Db.Event :=
  ⟨pid, d.title, d.start, d.«end», d.description, d.location, d.all_day,
   d.organizer, d.attendees, d.status, now, now⟩

/-- The per-payload loop of the `process` command: parse the stored
payload strictly, map it, and upsert by `api_payload_id`; any exception is
caught, counted, and the loop continues. -/
def process_events_go (now : Nat) :
    List Db.ApiPayload → ProcessSummary → ProcessSummary
  | [], st => st
  | p :: rest, st =>
      match CompassParser.parse CompassEventModel p.get_payload with
      | .error _ => process_events_go now rest { st with errors := st.errors + 1 }
      | .ok (.inr _) =>
          -- a list result would crash in the mapper and be caught and counted;
          -- `get_payload` always returns a dict, so this branch is unreachable
          process_events_go now rest { st with errors := st.errors + 1 }
      | .ok (.inl compass_event) =>
          let event_data := compass_event_to_event compass_event
          if st.events.any (fun r => r.api_payload_id == p.id) then
            process_events_go now rest
              { st with
                processed := st.processed + 1
                updated := st.updated + 1
                events := updateFirst st.events p.id event_data now }
          else
            process_events_go now rest
              { st with
                processed := st.processed + 1
                created := st.created + 1
                events := st.events ++ [newEventRow p.id event_data now] }

/-- The `process` command over the payloads of the selected batch, against
an events table. -/
def process_events (db_events : List Db.Event) (payloads : List Db.ApiPayload)
    (now : Nat) : ProcessSummary :=
  process_events_go now payloads ⟨0, 0, 0, 0, db_events⟩

/-! ## The `sync` command's event-storing step -/

/-- Constraint failures surfaced by a commit. -/
inductive DbError where
  | notNullViolation (table column : String)
  | uniqueViolation (constraint : String)
deriving DecidableEq, Repr

/-- The key of the declared unique constraint. -/
def payloadKey (r : Db.ApiPayload) : String × String × Option String :=
  (r.adapter_id, r.method_name, r.external_id)

/-- Commit freshly added `api_payloads` rows against the declared schema:
the NOT NULL constraint on `external_id`, then the
`uix_api_payload_external` unique constraint (SQLite semantics for the
schema declared in `Db.ApiPayload`). -/
def commitPayloads : List Db.ApiPayload → List Db.ApiPayload →
    Except DbError (List Db.ApiPayload)
  | db, [] => .ok db
  | db, r :: rest =>
      if r.external_id = none then
        .error (.notNullViolation "api_payloads" "external_id")
      else if db.any (fun x => decide (payloadKey x = payloadKey r)) then
        .error (.uniqueViolation "uix_api_payload_external")
      else commitPayloads (db ++ [r]) rest

/-- Lines 173–183 of `sync_calendar_events`: each fetched event is stored
as a new `ApiPayload` row — no `external_id` is supplied and there is no
conflict handling — and the batch is committed. -/
def syncStoreEvents (db : List Db.ApiPayload) (events_batch_id : String)
    (events : List JsonVal) (now : Nat) : Except DbError (List Db.ApiPayload) :=
  let added := events.map fun event =>
    ({ id := "", adapter_id := "compass", method_name := "get_calendar_events",
       batch_id := events_batch_id, external_id := none, payload := event,
       created_at := now, updated_at := now } : Db.ApiPayload)
  commitPayloads db added

/-! ## Calendar-event envelope handling of the two clients -/

/-- The response handling of `CompassClient.get_calendar_events` (lines
269–276 of compass_client/client.py): unwrap a `d` envelope and return the
list, or `[]` when the payload is not a list.  The function has no
client-side truncation; `limit` is only sent upstream. -/
def clientGetCalendarEvents (data : JsonVal) : List JsonVal :=
  let events :=
    match data with
    | .obj fields =>
        match dictGet fields "d" with
        | some d => d
        | none => .obj fields
    | v => v
  match events with
  | .arr items => items
  | _ => []

/-- Failures the browser fetch path can raise. -/
inductive PyFetchError where
  | emptyResponse
  | typeError
deriving DecidableEq, Repr

/-- Python slice `x[:limit]` during response extraction: lists and strings
slice; other values raise `TypeError`. -/
def pySliceVal (v : JsonVal) (n : Nat) : Except PyFetchError JsonVal :=
  match v with
  | .arr items => .ok (.arr (items.take n))
  | .str s => .ok (.str (pySliceStr s n))
  | _ => .error .typeError

/-- The response handling of `BrowserFetcher.get_calendar_events` (lines
370–387 of compass_client/cli/browser_fetcher.py): an empty/falsy response
raises; a `d` envelope holding a list, a `d` envelope holding a dict with
`data`, a top-level `data` key, and a bare list are each sliced to
`limit`; anything else yields `[]`. -/
def browserGetCalendarEvents (response : JsonVal) (limit : Nat) :
    Except PyFetchError JsonVal :=
  if !truthy response then .error .emptyResponse
  else
    match response with
    | .obj fields =>
        match dictGet fields "d" with
        | some (.arr items) => .ok (.arr (items.take limit))
        | some (.obj inner) =>
            match dictGet inner "data" with
            | some v => pySliceVal v limit
            | none => .ok (.arr [])
        | some _ => .ok (.arr [])
        | none =>
            match dictGet fields "data" with
            | some v => pySliceVal v limit
            | none => .ok (.arr [])
    | .arr items => .ok (.arr (items.take limit))
    | _ => .ok (.arr [])

/-! ## Concrete fixtures

Raw payloads in the shape the calendar endpoint produces, used to evaluate
the embedded functions at concrete inputs. -/

/-- A valid raw calendar event. -/
def rawEventA : JsonVal := .obj
  [("activityId", .num 101), ("activityType", .num 1), ("allDay", .bool false),
   ("attendanceMode", .num 1), ("attendeeUserId", .num 5000),
   ("backgroundColor", .str "#dce6f4"), ("calendarId", .num 3),
   ("description", .str "Bring sports uniform"), ("finish", .str "2025-02-03T10:00:00Z"),
   ("guid", .str "aaa-bbb-ccc"), ("instanceId", .str "9001"), ("isRecurring", .bool false),
   ("lessonPlanConfigured", .bool false), ("location", .null),
   ("locations", .arr [.obj [("locationId", .num 12), ("locationName", .str "Gym")]]),
   ("longTitle", .str "Sports Day (9am)"), ("longTitleWithoutTime", .str "Sports Day"),
   ("managerId", .num 77), ("repeatForever", .bool false), ("repeatFrequency", .num 0),
   ("rollMarked", .bool true), ("runningStatus", .num 0),
   ("start", .str "2025-02-03T09:00:00Z"), ("targetStudentId", .num 42),
   ("teachingDaysOnly", .bool false), ("title", .str "Sports Day")]

/-- A second valid raw calendar event. -/
def rawEventB : JsonVal := .obj
  [("activityId", .num 202), ("activityType", .num 2), ("allDay", .bool true),
   ("attendanceMode", .num 1), ("attendeeUserId", .num 5000),
   ("backgroundColor", .str "#ffffff"), ("calendarId", .num 3),
   ("description", .str ""), ("finish", .str "2025-03-10T00:00:00Z"),
   ("guid", .str "ddd-eee-fff"), ("instanceId", .str "9002"), ("isRecurring", .bool false),
   ("lessonPlanConfigured", .bool false), ("location", .str "Room 5"),
   ("locations", .null),
   ("longTitle", .str "Pupil Free Day"), ("longTitleWithoutTime", .str "Pupil Free Day"),
   ("managerId", .num 78), ("repeatForever", .bool false), ("repeatFrequency", .num 0),
   ("rollMarked", .bool false), ("runningStatus", .num 1),
   ("start", .str "2025-03-10T00:00:00Z"), ("targetStudentId", .num 42),
   ("teachingDaysOnly", .bool false), ("title", .str "Pupil Free Day")]

/-- `rawEventA` with the required `description` and `title` fields removed:
fails validation with two `missing` field errors. -/
def rawEventBad : JsonVal := .obj
  [("activityId", .num 101), ("activityType", .num 1), ("allDay", .bool false),
   ("attendanceMode", .num 1), ("attendeeUserId", .num 5000),
   ("backgroundColor", .str "#dce6f4"), ("calendarId", .num 3),
   ("finish", .str "2025-02-03T10:00:00Z"),
   ("guid", .str "aaa-bbb-ccc"), ("instanceId", .str "9001"), ("isRecurring", .bool false),
   ("lessonPlanConfigured", .bool false), ("location", .null),
   ("longTitle", .str "Sports Day (9am)"), ("longTitleWithoutTime", .str "Sports Day"),
   ("managerId", .num 77), ("repeatForever", .bool false), ("repeatFrequency", .num 0),
   ("rollMarked", .bool true), ("runningStatus", .num 0),
   ("start", .str "2025-02-03T09:00:00Z"), ("targetStudentId", .num 42),
   ("teachingDaysOnly", .bool false)]

/-- A concrete validated event, for evaluating the mapper. -/
def sampleEvent : CompassEvent :=
  { type := "CalendarTransport:http://jdlf.com.au/ns/data/calendar"
    activity_id := 101
    activity_import_identifier := none
    activity_type := 1
    all_day := false
    attendance_mode := 1
    attendee_user_id := 5000
    background_color := "#dce6f4"
    calendar_id := 3
    category_ids := none
    comment := none
    description := "Bring sports uniform"
    event_setup_status := none
    finish := ⟨2025, 2, 3, 10, 0, 0, 0, some 0⟩
    guid := "aaa-bbb-ccc"
    in_class_status := none
    instance_id := "9001"
    is_recurring := false
    learning_task_activity_id := none
    learning_task_id := none
    lesson_plan_configured := false
    location := none
    locations := none
    long_title := "Sports Day (9am)"
    long_title_without_time := "Sports Day"
    manager_id := 77
    managers := none
    minutes_meeting_id := none
    period := none
    recurring_finish := none
    recurring_start := none
    repeat_days := none
    repeat_forever := false
    repeat_frequency := 0
    repeat_until := none
    roll_marked := true
    running_status := 0
    session_name := none
    start := ⟨2025, 2, 3, 9, 0, 0, 0, some 0⟩
    subject_id := none
    subject_long_name := none
    target_student_id := 42
    teaching_days_only := false
    text_color := none
    title := "Sports Day"
    unavailable_pd := none }

/-- A concrete locations-list entry naming the Gym. -/
def gymLocation : CalendarEventLocation :=
  ⟨"CalendarEventLocation:http://jdlf.com.au/ns/data/calendar", none, none, 12, some "Gym"⟩

/-! ## Supporting notions for the `process`-run claims -/

/-- The outcome the `process` loop sees for one payload: the normalized
event when strict parsing succeeds, nothing when the item errors. -/
def parsedEvent (p : Db.ApiPayload) : Option Event :=
  match CompassParser.parse CompassEventModel p.get_payload with
  | .ok (.inl compass_event) => some (compass_event_to_event compass_event)
  | _ => none

/-- Whether the events table holds a row for a payload id. -/
def hasRowFor (evs : List Db.Event) (pid : String) : Bool :=
  evs.any fun r => r.api_payload_id == pid

/-- Whether a row's derived fields agree with a normalized event. -/
def rowMatches (r : Db.Event) (d : Event) : Bool :=
  r.title == d.title && r.start == d.start && r.«end» == d.«end» &&
  r.description == d.description && r.location == d.location &&
  r.all_day == d.all_day && r.organizer == d.organizer &&
  r.attendees == d.attendees && r.status == d.status

/-- Everything about an event row except its `updated_at`. -/
def derivedFields (r : Db.Event) :
    String × String × PyDateTime × PyDateTime × Option String × Option String ×
      Bool × Option String × List String × Option String × Nat :=
  (r.api_payload_id, r.title, r.start, r.«end», r.description, r.location,
   r.all_day, r.organizer, r.attendees, r.status, r.created_at)

/-- The rows one update run applies, payload by payload. -/
def updateAll (evs : List Db.Event) (payloads : List Db.ApiPayload) (now : Nat) :
    List Db.Event :=
  payloads.foldl
    (fun acc p =>
      match parsedEvent p with
      | some d => updateFirst acc p.id d now
      | none => acc)
    evs

/-- The rows a create run appends: one per validating payload, in order. -/
def createdRows (payloads : List Db.ApiPayload) (now : Nat) : List Db.Event :=
  payloads.filterMap fun p => (parsedEvent p).map fun d => newEventRow p.id d now

/-- A stored payload row holding `rawEventA`. -/
def payloadRowA : Db.ApiPayload :=
  ⟨"p1", "compass", "get_calendar_events", "b1", some "9001", rawEventA, 0, 0⟩

/-- A stored payload row holding `rawEventB`. -/
def payloadRowB : Db.ApiPayload :=
  ⟨"p2", "compass", "get_calendar_events", "b1", some "9002", rawEventB, 0, 0⟩

/-- A stored payload row holding the invalid `rawEventBad`. -/
def payloadRowBad : Db.ApiPayload :=
  ⟨"p3", "compass", "get_calendar_events", "b1", some "9003", rawEventBad, 0, 0⟩

/-! ## Claims -/

/-- C1: the claim demands upsert-on-conflict, but the sync path's
event-storing step assigns no `external_id` and has no conflict handling:
for every database state and every non-empty fetch it aborts on the NOT
NULL constraint of `external_id`, so a second observation of the same
occurrence can never reach an update path — the code contradicts the
schema's documented purpose of the unique key.  (Code defect; the spec
itself flags the insert-only variant as a latent bug.) -/
theorem c1_sync_store_never_updates (db : List Db.ApiPayload) (batch : String)
    (e : JsonVal) (es : List JsonVal) (now : Nat) :
    syncStoreEvents db batch (e :: es) now =
      .error (.notNullViolation "api_payloads" "external_id") := by
  rfl

/-- C2, counterexample: a validated event with running-status code 0 is
mapped to status `"EventScheduled"`, not `"Scheduled"` as the claim
states. -/
theorem c2_counterexample :
    (compass_event_to_event sampleEvent).status = some "EventScheduled" ∧
    (compass_event_to_event sampleEvent).status ≠ some "Scheduled" := by
  constructor
  · rfl
  · decide

/-- C2 (amended): for every validated event the normalizer maps
running-status 0 to `"EventScheduled"`, 1 to `"EventCancelled"`, 2 to
`"EventPostponed"`, and any other code to null; unknown codes raise no
error. -/
theorem c2_status_mapping (ce : CompassEvent) :
    (compass_event_to_event ce).status =
      (if ce.running_status = 0 then some "EventScheduled"
       else if ce.running_status = 1 then some "EventCancelled"
       else if ce.running_status = 2 then some "EventPostponed"
       else none) := by
  rfl

/-- C3, counterexample: with `limit = 1` and an upstream envelope holding
two items, the browser-driven client returns only the first item while the
HTTP client returns both, so the two clients do not share a
no-client-side-truncation contract. -/
theorem c3_counterexample :
    browserGetCalendarEvents
        (.obj [("d", .arr [.obj [("title", .str "One")], .obj [("title", .str "Two")]])]) 1 =
      .ok (.arr [.obj [("title", .str "One")]]) ∧
    JsonVal.arr [.obj [("title", .str "One")]] ≠
      .arr [.obj [("title", .str "One")], .obj [("title", .str "Two")]] ∧
    clientGetCalendarEvents
        (.obj [("d", .arr [.obj [("title", .str "One")], .obj [("title", .str "Two")]])]) =
      [.obj [("title", .str "One")], .obj [("title", .str "Two")]] := by
  refine ⟨rfl, ?_, rfl⟩
  decide

/-- C3 (amended): the HTTP client returns every item the envelope holds
(it has no client-side truncation at all), while the browser-driven client
truncates the returned list to the first `limit` items. -/
theorem c3_client_truncation (l : List JsonVal) (limit : Nat) :
    clientGetCalendarEvents (.obj [("d", .arr l)]) = l ∧
    clientGetCalendarEvents (.arr l) = l ∧
    browserGetCalendarEvents (.obj [("d", .arr l)]) limit = .ok (.arr (l.take limit)) := by
  refine ⟨rfl, rfl, rfl⟩

/-- C9, counterexample: an event whose flat location is the present-but-
empty string `""` and whose locations list names `"Gym"` resolves to
`"Gym"`: the code tests Python truthiness, not presence, so the claim's
"the flat location string when it is present" fails at this input. -/
theorem c9_counterexample :
    (compass_event_to_event
        { sampleEvent with location := some "", locations := some [gymLocation] }).location =
      some "Gym" ∧
    (some "Gym" : Option String) ≠ some "" := by
  constructor
  · rfl
  · decide

/-- C9 (amended): the location resolves to the flat location string when
that string is non-null and non-empty; otherwise to the location-name of
the first entry of the locations list when that list is non-null and
non-empty; otherwise the flat location value is kept unchanged (null when
absent — but an empty flat string is preserved, not coerced to null). -/
theorem c9_location_resolution (ce : CompassEvent) :
    (compass_event_to_event ce).location =
      (if pyStrOptTruthy ce.location then ce.location
       else
         match ce.locations with
         | some (first :: _) => first.location_name
         | _ => ce.location) := by
  rcases hls : ce.locations with _ | ⟨_ | ⟨first, rest⟩⟩ <;>
    cases h : pyStrOptTruthy ce.location <;>
      simp [compass_event_to_event, pyLocationsTruthy, hls, h]

/-- Each 32-bit word renders as exactly eight hex characters. -/
theorem hex8chars_length (x : Nat) : (hex8chars x).length = 8 := by
  simp [hex8chars]

/-- The hex digest is 64 characters long. -/
theorem sha256hex_data_length (s : String) : (sha256hex s).data.length = 64 := by
  simp [sha256hex, hex8chars_length]

/-- C8, counterexample: two payloads lacking `instanceId` that differ in
their `activityId` (and `start`) fields produce the same colon-joined hash
input `"1:2:3:g"`, hence identical fingerprints — so "a payload differing
in any of those three fields produces a different fingerprint" is false. -/
theorem c8_counterexample :
    dictGetD [("activityId", .str "1:2"), ("start", .str "3"), ("guid", .str "g")]
        "activityId" (.str "") ≠
      dictGetD [("activityId", .str "1"), ("start", .str "2:3"), ("guid", .str "g")]
        "activityId" (.str "") ∧
    generate_external_id
        [("activityId", .str "1:2"), ("start", .str "3"), ("guid", .str "g")] "compass" =
      generate_external_id
        [("activityId", .str "1"), ("start", .str "2:3"), ("guid", .str "g")] "compass" := by
  constructor
  · decide
  · rfl

/-- C8 (amended): the derivation is deterministic — a truthy `instanceId`
becomes the external id via `str()`; payloads without one that agree on
`(activityId, start, guid)` derive equal fingerprints; and the fingerprint
is a fixed-length 32-hex-character truncated SHA-256 digest.  Distinct
triples can collide when their colon-joined renderings coincide, so
difference of fields does not guarantee difference of fingerprints. -/
theorem c8_fingerprint :
    (∀ p : List (String × JsonVal), truthy (dictGetD p "instanceId" .null) = true →
      generate_external_id p "compass" = pyStr (dictGetD p "instanceId" .null)) ∧
    (∀ p q : List (String × JsonVal),
      truthy (dictGetD p "instanceId" .null) = false →
      truthy (dictGetD q "instanceId" .null) = false →
      dictGetD p "activityId" (.str "") = dictGetD q "activityId" (.str "") →
      dictGetD p "start" (.str "") = dictGetD q "start" (.str "") →
      dictGetD p "guid" (.str "") = dictGetD q "guid" (.str "") →
      generate_external_id p "compass" = generate_external_id q "compass") ∧
    (∀ p : List (String × JsonVal), truthy (dictGetD p "instanceId" .null) = false →
      (generate_external_id p "compass").length = 32) := by
  refine ⟨?_, ?_, ?_⟩
  · intro p h
    simp [generate_external_id, h]
  · intro p q hp hq h1 h2 h3
    simp [generate_external_id, hp, hq, h1, h2, h3]
  · intro p h
    have e1 : generate_external_id p "compass" =
        pySliceStr (sha256hex (pyStr (dictGetD p "activityId" (.str "")) ++ ":" ++
          pyStr (dictGetD p "start" (.str "")) ++ ":" ++
          pyStr (dictGetD p "guid" (.str "")))) 32 := by
      simp [generate_external_id, h]
    rw [e1]
    simp only [pySliceStr]
    rw [show ∀ l : List Char, (String.mk l).length = l.length from fun _ => rfl]
    rw [List.length_take, sha256hex_data_length]
    rfl

/-- C8 witness: the three parts of `c8_fingerprint` evaluated at concrete
payloads. -/
theorem c8_fingerprint_witness :
    generate_external_id [("instanceId", .str "9001")] "compass" = "9001" ∧
    generate_external_id
        [("activityId", .num 7), ("start", .str "2025-01-01T09:00:00Z"),
         ("guid", .str "abc-def"), ("extra", .num 1)] "compass" =
      generate_external_id
        [("guid", .str "abc-def"), ("activityId", .num 7),
         ("start", .str "2025-01-01T09:00:00Z")] "compass" ∧
    (generate_external_id
        [("activityId", .num 7), ("start", .str "2025-01-01T09:00:00Z"),
         ("guid", .str "abc-def")] "compass").length = 32 :=
  ⟨(c8_fingerprint.1 _ (by decide)).trans (by decide),
   c8_fingerprint.2.1 _ _ (by decide) (by decide) (by decide) (by decide) (by decide),
   c8_fingerprint.2.2 _ (by decide)⟩

/-- Valid items plus one error per failing item is all the loop ever
accumulates. -/
theorem parseSafeGo_spec (model : PydanticModel T) (b : Bool) :
    ∀ (l : List JsonVal) (i : Nat) (v : List T) (e : List CompassParseError),
      (CompassParser.parseSafeGo model b i l (v, e)).1 =
          v ++ (l.filterMap fun r => (model.validate r).toOption) ∧
      (CompassParser.parseSafeGo model b i l (v, e)).2.length =
          e.length + (l.countP fun r => ((model.validate r).toOption).isNone)
  | [], i, v, e => by simp [CompassParser.parseSafeGo]
  | x :: xs, i, v, e => by
      cases hx : model.validate x with
      | ok t =>
          have ih := parseSafeGo_spec model b xs (i + 1) (v ++ [t]) e
          simp [CompassParser.parseSafeGo, hx, ih.1, ih.2, Except.toOption,
                List.filterMap_cons, List.countP_cons]
      | error err =>
          have ih := parseSafeGo_spec model b xs (i + 1) v
            (e ++ [⟨"Failed to parse " ++ model.name ++ " at index " ++ toString i ++ ": " ++
                    toString err.errors.length ++ " validation error(s)", x, err.errors⟩])
          cases b <;>
            simp [CompassParser.parseSafeGo, hx, ih.1, ih.2, Except.toOption,
                  List.filterMap_cons, List.countP_cons] <;>
            omega

/-- Validating items plus counted failures exhaust the input. -/
theorem filterMap_length_add_countP (f : α → Option β) (l : List α) :
    (l.filterMap f).length + (l.countP fun r => (f r).isNone) = l.length := by
  induction l with
  | nil => simp
  | cons x xs ih =>
      cases hx : f x <;> simp [List.filterMap_cons, hx, List.countP_cons] <;> omega

/-- C4: `parse_safe` is a total function (it never raises), the returned
pair always satisfies `len(valid) + len(errors) = len(input)`, and the
valid items are exactly the validating inputs in their original relative
order — for every model, input list, and `skip_invalid` flag. -/
theorem c4_parse_safe_partition (model : PydanticModel T) (raw_list : List JsonVal)
    (skip_invalid : Bool) :
    (CompassParser.parse_safe model raw_list skip_invalid).1.length +
        (CompassParser.parse_safe model raw_list skip_invalid).2.length =
      raw_list.length ∧
    (CompassParser.parse_safe model raw_list skip_invalid).1 =
      raw_list.filterMap fun r => (model.validate r).toOption := by
  have h := parseSafeGo_spec model skip_invalid raw_list 0 [] []
  unfold CompassParser.parse_safe
  refine ⟨?_, by simpa using h.1⟩
  rw [h.1, h.2]
  simpa using filterMap_length_add_countP (fun r => (model.validate r).toOption) raw_list

/-- The two branches of the dead `skip_invalid` conditional coincide, so
the flag never influences the loop. -/
theorem parseSafeGo_skip_invariant (model : PydanticModel T) :
    ∀ (l : List JsonVal) (i : Nat) (acc : List T × List CompassParseError),
      CompassParser.parseSafeGo model true i l acc =
        CompassParser.parseSafeGo model false i l acc
  | [], _, acc => by obtain ⟨v, e⟩ := acc; simp [CompassParser.parseSafeGo]
  | x :: xs, i, acc => by
      obtain ⟨v, e⟩ := acc
      cases hx : model.validate x <;>
        simp [CompassParser.parseSafeGo, hx, parseSafeGo_skip_invariant model xs]

/-- C10: `parse_safe` returns exactly the same `(valid, errors)` pair
whether `skip_invalid` is true or false — the flag has no observable
effect, its documented distinction notwithstanding. -/
theorem c10_skip_invalid_no_effect (model : PydanticModel T) (raw_list : List JsonVal) :
    CompassParser.parse_safe model raw_list true =
      CompassParser.parse_safe model raw_list false := by
  unfold CompassParser.parse_safe
  exact parseSafeGo_skip_invariant model raw_list 0 ([], [])

/-- The comprehension fails with the validation error of the first invalid
item. -/
theorem validateSeq_error_of_first (model : PydanticModel T) :
    ∀ (l : List JsonVal) (i : Nat) (item : JsonVal) (e : ValidationError),
      l[i]? = some item →
      ((l.take i).all fun x => ((model.validate x).toOption).isSome) = true →
      model.validate item = .error e →
      CompassParser.validateSeq model l = .error e
  | [], i, item, e, h1, _, _ => by simp at h1
  | x :: xs, 0, item, e, h1, h2, h3 => by
      simp at h1
      subst h1
      simp [CompassParser.validateSeq, h3]
  | x :: xs, i + 1, item, e, h1, h2, h3 => by
      simp at h1 h2
      obtain ⟨hx, h2'⟩ := h2
      cases hvx : model.validate x with
      | error err => simp [hvx, Except.toOption] at hx
      | ok t =>
          have ih := validateSeq_error_of_first model xs i item e h1 (by simpa using h2') h3
          simp [CompassParser.validateSeq, hvx, ih]

/-- The except-block's rescan lands on the first invalid index and
item. -/
theorem firstFailure_of_first (model : PydanticModel T) :
    ∀ (l : List JsonVal) (n i : Nat) (item : JsonVal) (e : ValidationError),
      l[i]? = some item →
      ((l.take i).all fun x => ((model.validate x).toOption).isSome) = true →
      model.validate item = .error e →
      CompassParser.firstFailure model l n = some (n + i, item, e)
  | [], n, i, item, e, h1, _, _ => by simp at h1
  | x :: xs, n, 0, item, e, h1, h2, h3 => by
      simp at h1
      subst h1
      simp [CompassParser.firstFailure, h3]
  | x :: xs, n, i + 1, item, e, h1, h2, h3 => by
      simp at h1 h2
      obtain ⟨hx, h2'⟩ := h2
      cases hvx : model.validate x with
      | error err => simp [hvx, Except.toOption] at hx
      | ok t =>
          have ih := firstFailure_of_first model xs (n + 1) i item e h1 (by simpa using h2') h3
          have harith : n + 1 + i = n + (i + 1) := by omega
          simp [CompassParser.firstFailure, hvx, ih, harith]

/-- C5: on a list whose first invalid item sits at index `i`, strict
`parse` raises a `CompassParseError` whose message names the model, the
index `i` and the error count, and which carries the offending raw item
together with the full field-error list of its validation failure. -/
theorem c5_parse_list_first_error (model : PydanticModel T) (raw_list : List JsonVal)
    (i : Nat) (item : JsonVal) (e : ValidationError)
    (h1 : raw_list[i]? = some item)
    (h2 : ((raw_list.take i).all fun x => ((model.validate x).toOption).isSome) = true)
    (h3 : model.validate item = .error e) :
    CompassParser.parse_list model raw_list =
      .error ⟨"Failed to parse " ++ model.name ++ " at index " ++ toString i ++ ": " ++
              toString e.errors.length ++ " validation error(s)", item, e.errors⟩ := by
  unfold CompassParser.parse_list
  rw [validateSeq_error_of_first model raw_list i item e h1 h2 h3]
  have hf := firstFailure_of_first model raw_list 0 i item e h1 h2 h3
  rw [Nat.zero_add] at hf
  rw [hf]

/-- C5 witness: a two-item list whose second item misses `description` and
`title`; the raised error names index 1, the two field errors, and carries
the offending raw payload. -/
theorem c5_parse_list_first_error_witness :
    CompassParser.parse_list CompassEventModel [rawEventA, rawEventBad] =
      .error ⟨"Failed to parse CompassEvent at index 1: 2 validation error(s)", rawEventBad,
              [⟨"description", "missing", "Field required"⟩,
               ⟨"title", "missing", "Field required"⟩]⟩ :=
  c5_parse_list_first_error CompassEventModel [rawEventA, rawEventBad] 1 rawEventBad
    ⟨[⟨"description", "missing", "Field required"⟩,
      ⟨"title", "missing", "Field required"⟩]⟩
    (by rfl) (by rfl) (by rfl)


/-- A failing payload only bumps the error count. -/
theorem process_go_cons_err (now : Nat) (p : Db.ApiPayload) (rest : List Db.ApiPayload)
    (st : ProcessSummary) (h : parsedEvent p = none) :
    process_events_go now (p :: rest) st =
      process_events_go now rest { st with errors := st.errors + 1 } := by
  rcases hq : CompassParser.parse CompassEventModel p.get_payload with e | ce | l
  · simp [process_events_go, hq]
  · exfalso
    rw [parsedEvent, hq] at h
    simp at h
  · simp [process_events_go, hq]

/-- A validating payload upserts its normalized event. -/
theorem process_go_cons_ok (now : Nat) (p : Db.ApiPayload) (rest : List Db.ApiPayload)
    (st : ProcessSummary) (d : Event) (h : parsedEvent p = some d) :
    process_events_go now (p :: rest) st =
      (if hasRowFor st.events p.id then
        process_events_go now rest
          { st with
            processed := st.processed + 1
            updated := st.updated + 1
            events := updateFirst st.events p.id d now }
      else
        process_events_go now rest
          { st with
            processed := st.processed + 1
            created := st.created + 1
            events := st.events ++ [newEventRow p.id d now] }) := by
  rcases hq : CompassParser.parse CompassEventModel p.get_payload with e | ce | l
  · rw [parsedEvent, hq] at h
    simp at h
  · rw [parsedEvent, hq] at h
    simp at h
    subst h
    simp [process_events_go, hq, hasRowFor]
  · rw [parsedEvent, hq] at h
    simp at h

/-- Updating never changes which payload ids have rows. -/
theorem hasRowFor_updateFirst (evs : List Db.Event) (pid : String) (d : Event)
    (now : Nat) (q : String) :
    hasRowFor (updateFirst evs pid d now) q = hasRowFor evs q := by
  induction evs with
  | nil => rfl
  | cons r rest ih =>
      by_cases hr : r.api_payload_id = pid
      · simp [updateFirst, hr, hasRowFor, List.any_cons]
      · simp only [updateFirst, if_neg hr]
        simp only [hasRowFor, List.any_cons] at ih ⊢
        rw [ih]

/-- Tables only grow row-id-wise under append. -/
theorem hasRowFor_append (a b : List Db.Event) (q : String) :
    hasRowFor (a ++ b) q = (hasRowFor a q || hasRowFor b q) := by
  simp [hasRowFor, List.any_append]

/-- A row of an updated table is an original row or carries the new
fields under the updated id. -/
theorem mem_updateFirst (evs : List Db.Event) (pid : String) (d : Event) (now : Nat)
    (r : Db.Event) (hr : r ∈ updateFirst evs pid d now) :
    r ∈ evs ∨ (r.api_payload_id = pid ∧ rowMatches r d = true) := by
  induction evs with
  | nil => simp [updateFirst] at hr
  | cons x rest ih =>
      by_cases hx : x.api_payload_id = pid
      · rw [updateFirst, if_pos hx] at hr
        rcases List.mem_cons.mp hr with h | h
        · right
          subst h
          exact ⟨hx, by simp [rowMatches]⟩
        · exact Or.inl (List.mem_cons_of_mem _ h)
      · rw [updateFirst, if_neg hx] at hr
        rcases List.mem_cons.mp hr with h | h
        · exact Or.inl (h ▸ List.mem_cons_self _ _)
        · rcases ih h with h2 | h2
          · exact Or.inl (List.mem_cons_of_mem _ h2)
          · exact Or.inr h2

/-- Rows with a different payload id survive an update untouched. -/
theorem mem_updateFirst_of_ne (evs : List Db.Event) (pid : String) (d : Event)
    (now : Nat) (r : Db.Event) (hr : r ∈ evs) (hne : r.api_payload_id ≠ pid) :
    r ∈ updateFirst evs pid d now := by
  induction evs with
  | nil => simp at hr
  | cons x rest ih =>
      rcases List.mem_cons.mp hr with h | h
      · subst h
        rw [updateFirst, if_neg hne]
        exact List.mem_cons_self _ _
      · by_cases hx : x.api_payload_id = pid
        · rw [updateFirst, if_pos hx]
          exact List.mem_cons_of_mem _ h
        · rw [updateFirst, if_neg hx]
          exact List.mem_cons_of_mem _ (ih h)

/-- When a row for the id exists, updating leaves a row carrying exactly
the new derived fields. -/
theorem updateFirst_mem_updated (evs : List Db.Event) (pid : String) (d : Event)
    (now : Nat) (h : hasRowFor evs pid = true) :
    ∃ row ∈ updateFirst evs pid d now,
      row.api_payload_id = pid ∧ rowMatches row d = true := by
  induction evs with
  | nil => simp [hasRowFor] at h
  | cons x rest ih =>
      by_cases hx : x.api_payload_id = pid
      · rw [updateFirst, if_pos hx]
        exact ⟨_, List.mem_cons_self _ _, hx, by simp [rowMatches]⟩
      · rw [updateFirst, if_neg hx]
        have h2 : hasRowFor rest pid = true := by
          simp [hasRowFor, List.any_cons, hx] at h
          simpa [hasRowFor] using h
        obtain ⟨row, hm, hp, hmt⟩ := ih h2
        exact ⟨row, List.mem_cons_of_mem _ hm, hp, hmt⟩

/-- Updating with data every matching row already carries leaves all
derived fields unchanged (only `updated_at` moves). -/
theorem updateFirst_derived_eq (evs : List Db.Event) (pid : String) (d : Event)
    (now : Nat) (h : ∀ r ∈ evs, r.api_payload_id = pid → rowMatches r d = true) :
    (updateFirst evs pid d now).map derivedFields = evs.map derivedFields := by
  induction evs with
  | nil => rfl
  | cons x rest ih =>
      by_cases hx : x.api_payload_id = pid
      · rw [updateFirst, if_pos hx]
        simp only [List.map_cons]
        congr 1
        have hm := h x (List.mem_cons_self _ _) hx
        simp only [rowMatches, Bool.and_eq_true, beq_iff_eq] at hm
        obtain ⟨⟨⟨⟨⟨⟨⟨⟨ht, hs⟩, he⟩, hdn⟩, hl⟩, ha⟩, ho⟩, hat⟩, hst⟩ := hm
        simp [derivedFields, ht, hs, he, hdn, hl, ha, ho, hat, hst]
      · rw [updateFirst, if_neg hx]
        simp only [List.map_cons]
        congr 1
        exact ih fun r hr hp => h r (List.mem_cons_of_mem _ hr) hp

/-- A run over all-fresh, all-valid payloads creates one row each and
reports only creations. -/
theorem process_go_create_run (now : Nat) :
    ∀ (payloads : List Db.ApiPayload) (st : ProcessSummary),
      (∀ p ∈ payloads, (parsedEvent p).isSome = true) →
      (∀ p ∈ payloads, hasRowFor st.events p.id = false) →
      ((payloads.map fun p => p.id).Nodup) →
      process_events_go now payloads st =
        { processed := st.processed + payloads.length
          created := st.created + payloads.length
          updated := st.updated
          errors := st.errors
          events := st.events ++ createdRows payloads now }
  | [], st, _, _, _ => by simp [process_events_go, createdRows]
  | p :: rest, st, hv, hf, hnd => by
      obtain ⟨d, hd⟩ := Option.isSome_iff_exists.mp (hv p (List.mem_cons_self _ _))
      rw [process_go_cons_ok now p rest st d hd, hf p (List.mem_cons_self _ _)]
      simp only [Bool.false_eq_true, if_false]
      simp only [List.map_cons, List.nodup_cons] at hnd
      have ih := process_go_create_run now rest
        { st with
          processed := st.processed + 1
          created := st.created + 1
          events := st.events ++ [newEventRow p.id d now] }
        (fun q hq => hv q (List.mem_cons_of_mem _ hq))
        (fun q hq => by
          rw [hasRowFor_append]
          have h1 := hf q (List.mem_cons_of_mem _ hq)
          have h2 : p.id ≠ q.id := by
            intro heq
            exact hnd.1 (heq ▸ List.mem_map_of_mem (fun z => z.id) hq)
          have h3 : hasRowFor [newEventRow p.id d now] q.id = false := by
            simp [hasRowFor, newEventRow, h2]
          rw [h1, h3]
          rfl)
        hnd.2
      rw [ih]
      simp only [createdRows, List.filterMap_cons, hd, Option.map_some]
      simp [List.append_assoc]
      omega
  termination_by payloads => payloads.length

/-- A run over all-valid payloads that all already have rows updates each
and reports only updates. -/
theorem process_go_update_run (now : Nat) :
    ∀ (payloads : List Db.ApiPayload) (st : ProcessSummary),
      (∀ p ∈ payloads, (parsedEvent p).isSome = true) →
      (∀ p ∈ payloads, hasRowFor st.events p.id = true) →
      process_events_go now payloads st =
        { processed := st.processed + payloads.length
          created := st.created
          updated := st.updated + payloads.length
          errors := st.errors
          events := updateAll st.events payloads now }
  | [], st, _, _ => by simp [process_events_go, updateAll]
  | p :: rest, st, hv, hr => by
      obtain ⟨d, hd⟩ := Option.isSome_iff_exists.mp (hv p (List.mem_cons_self _ _))
      rw [process_go_cons_ok now p rest st d hd, hr p (List.mem_cons_self _ _)]
      simp only [if_true]
      have ih := process_go_update_run now rest
        { st with
          processed := st.processed + 1
          updated := st.updated + 1
          events := updateFirst st.events p.id d now }
        (fun q hq => hv q (List.mem_cons_of_mem _ hq))
        (fun q hq => by
          rw [hasRowFor_updateFirst]
          exact hr q (List.mem_cons_of_mem _ hq))
      rw [ih]
      simp only [updateAll, List.foldl_cons, hd]
      simp
      omega
  termination_by payloads => payloads.length

/-- Counts of any run: one error per failing payload, one processed (and
one created-or-updated) per validating payload. -/
theorem process_go_counts (now : Nat) :
    ∀ (payloads : List Db.ApiPayload) (st : ProcessSummary),
      (process_events_go now payloads st).errors =
          st.errors + (payloads.countP fun p => (parsedEvent p).isNone) ∧
      (process_events_go now payloads st).processed =
          st.processed + (payloads.countP fun p => (parsedEvent p).isSome) ∧
      (process_events_go now payloads st).created +
          (process_events_go now payloads st).updated =
        st.created + st.updated + (payloads.countP fun p => (parsedEvent p).isSome)
  | [], st => by simp [process_events_go]
  | p :: rest, st => by
      cases hd : parsedEvent p with
      | none =>
          rw [process_go_cons_err now p rest st hd]
          have ih := process_go_counts now rest { st with errors := st.errors + 1 }
          refine ⟨?_, ?_, ?_⟩ <;>
            simp [ih.1, ih.2.1, ih.2.2, List.countP_cons, hd] <;> omega
      | some d =>
          rw [process_go_cons_ok now p rest st d hd]
          by_cases hc : hasRowFor st.events p.id = true
          · rw [hc]
            simp only [if_true]
            have ih := process_go_counts now rest
              { st with
                processed := st.processed + 1
                updated := st.updated + 1
                events := updateFirst st.events p.id d now }
            refine ⟨?_, ?_, ?_⟩ <;>
              simp [ih.1, ih.2.1, ih.2.2, List.countP_cons, hd] <;> omega
          · rw [Bool.not_eq_true] at hc
            rw [hc]
            simp only [Bool.false_eq_true, if_false]
            have ih := process_go_counts now rest
              { st with
                processed := st.processed + 1
                created := st.created + 1
                events := st.events ++ [newEventRow p.id d now] }
            refine ⟨?_, ?_, ?_⟩ <;>
              simp [ih.1, ih.2.1, ih.2.2, List.countP_cons, hd] <;> omega
  termination_by payloads => payloads.length

/-- A row whose payload id no later payload carries survives the rest of a
run untouched. -/
theorem process_go_mem_preserved (now : Nat) :
    ∀ (payloads : List Db.ApiPayload) (st : ProcessSummary) (row : Db.Event),
      row ∈ st.events → (∀ q ∈ payloads, q.id ≠ row.api_payload_id) →
      row ∈ (process_events_go now payloads st).events
  | [], st, row, h, _ => by simpa [process_events_go] using h
  | q :: rest, st, row, h, hne => by
      cases hd : parsedEvent q with
      | none =>
          rw [process_go_cons_err now q rest st hd]
          exact process_go_mem_preserved now rest _ row h
            fun z hz => hne z (List.mem_cons_of_mem _ hz)
      | some d =>
          rw [process_go_cons_ok now q rest st d hd]
          by_cases hc : hasRowFor st.events q.id = true
          · rw [hc]
            simp only [if_true]
            refine process_go_mem_preserved now rest _ row ?_
              fun z hz => hne z (List.mem_cons_of_mem _ hz)
            exact mem_updateFirst_of_ne st.events q.id d now row h
              fun heq => hne q (List.mem_cons_self _ _) heq.symm
          · rw [Bool.not_eq_true] at hc
            rw [hc]
            simp only [Bool.false_eq_true, if_false]
            refine process_go_mem_preserved now rest _ row ?_
              fun z hz => hne z (List.mem_cons_of_mem _ hz)
            exact List.mem_append_left _ h
  termination_by payloads => payloads.length

/-- Every validating payload of a run ends with a row carrying its
normalized fields (payload ids distinct). -/
theorem process_go_row_exists (now : Nat) :
    ∀ (payloads : List Db.ApiPayload) (st : ProcessSummary) (p : Db.ApiPayload) (d : Event),
      p ∈ payloads → parsedEvent p = some d →
      ((payloads.map fun q => q.id).Nodup) →
      ∃ row ∈ (process_events_go now payloads st).events,
        row.api_payload_id = p.id ∧ rowMatches row d = true
  | [], _, p, _, hp, _, _ => by simp at hp
  | q :: rest, st, p, d, hp, hd, hnd => by
      simp only [List.map_cons, List.nodup_cons] at hnd
      rcases List.mem_cons.mp hp with rfl | hp'
      · rw [process_go_cons_ok now p rest st d hd]
        by_cases hc : hasRowFor st.events p.id = true
        · rw [hc]
          simp only [if_true]
          obtain ⟨row, hm, hid, hmt⟩ := updateFirst_mem_updated st.events p.id d now hc
          refine ⟨row, ?_, hid, hmt⟩
          refine process_go_mem_preserved now rest _ row hm fun z hz heq => ?_
          have hz2 : z.id = p.id := heq.trans hid
          exact hnd.1 (hz2 ▸ List.mem_map_of_mem (fun y => y.id) hz)
        · rw [Bool.not_eq_true] at hc
          rw [hc]
          simp only [Bool.false_eq_true, if_false]
          refine ⟨newEventRow p.id d now, ?_, rfl, by simp [rowMatches, newEventRow]⟩
          refine process_go_mem_preserved now rest _ _ ?_ fun z hz heq => ?_
          · exact List.mem_append_right _ (List.mem_cons_self _ _)
          · have hz2 : z.id = p.id := heq
            exact hnd.1 (hz2 ▸ List.mem_map_of_mem (fun y => y.id) hz)
      · cases hq : parsedEvent q with
        | none =>
            rw [process_go_cons_err now q rest st hq]
            exact process_go_row_exists now rest _ p d hp' hd hnd.2
        | some dq =>
            rw [process_go_cons_ok now q rest st dq hq]
            by_cases hc : hasRowFor st.events q.id = true
            · rw [hc]
              simp only [if_true]
              exact process_go_row_exists now rest _ p d hp' hd hnd.2
            · rw [Bool.not_eq_true] at hc
              rw [hc]
              simp only [Bool.false_eq_true, if_false]
              exact process_go_row_exists now rest _ p d hp' hd hnd.2
  termination_by payloads => payloads.length

/-- Re-applying updates whose data every matching row already carries
leaves all derived fields of the table unchanged. -/
theorem updateAll_derived_eq (now : Nat) :
    ∀ (payloads : List Db.ApiPayload) (evs : List Db.Event),
      ((payloads.map fun p => p.id).Nodup) →
      (∀ p ∈ payloads, ∀ d, parsedEvent p = some d →
        ∀ r ∈ evs, r.api_payload_id = p.id → rowMatches r d = true) →
      (updateAll evs payloads now).map derivedFields = evs.map derivedFields
  | [], _, _, _ => rfl
  | p :: rest, evs, hnd, hinv => by
      simp only [List.map_cons, List.nodup_cons] at hnd
      simp only [updateAll, List.foldl_cons]
      cases hd : parsedEvent p with
      | none =>
          exact updateAll_derived_eq now rest evs hnd.2
            fun q hq d2 hd2 r hr hp => hinv q (List.mem_cons_of_mem _ hq) d2 hd2 r hr hp
      | some d =>
          have h1 := updateFirst_derived_eq evs p.id d now
            fun r hr hp => hinv p (List.mem_cons_self _ _) d hd r hr hp
          have h2 := updateAll_derived_eq now rest (updateFirst evs p.id d now) hnd.2
            fun q hq d2 hd2 r hr hp => by
              rcases mem_updateFirst evs p.id d now r hr with hin | ⟨hpid, hmt⟩
              · exact hinv q (List.mem_cons_of_mem _ hq) d2 hd2 r hin hp
              · exfalso
                have hqp : q.id = p.id := hp.symm.trans hpid
                exact hnd.1 (hqp ▸ List.mem_map_of_mem (fun y => y.id) hq)
          exact h2.trans h1

/-- C6: over distinct, all-valid stored payloads and a fresh events table,
the first normalization run creates one canonical event per payload (N
created, 0 updated, 0 errors), the second run over the same payloads
creates none and updates all (0 created, N updated, 0 errors), and every
derived field — everything except `updated_at` — is identical after both
runs. -/
theorem c6_process_idempotent (db0 : List Db.Event) (payloads : List Db.ApiPayload)
    (t1 t2 : Nat)
    (hvalid : ∀ p ∈ payloads, (parsedEvent p).isSome = true)
    (hfresh : ∀ p ∈ payloads, hasRowFor db0 p.id = false)
    (hnodup : ((payloads.map fun p => p.id).Nodup)) :
    (process_events db0 payloads t1).created = payloads.length ∧
    (process_events db0 payloads t1).updated = 0 ∧
    (process_events db0 payloads t1).errors = 0 ∧
    (process_events (process_events db0 payloads t1).events payloads t2).created = 0 ∧
    (process_events (process_events db0 payloads t1).events payloads t2).updated =
      payloads.length ∧
    (process_events (process_events db0 payloads t1).events payloads t2).errors = 0 ∧
    (process_events (process_events db0 payloads t1).events payloads t2).events.map
        derivedFields =
      (process_events db0 payloads t1).events.map derivedFields := by
  have h1 := process_go_create_run t1 payloads ⟨0, 0, 0, 0, db0⟩ hvalid hfresh hnodup
  have hrow2 : ∀ p ∈ payloads,
      hasRowFor (db0 ++ createdRows payloads t1) p.id = true := by
    intro p hp
    obtain ⟨d, hd⟩ := Option.isSome_iff_exists.mp (hvalid p hp)
    have hmem : newEventRow p.id d t1 ∈ createdRows payloads t1 :=
      List.mem_filterMap.mpr ⟨p, hp, by rw [hd]; rfl⟩
    rw [hasRowFor_append]
    have hc : hasRowFor (createdRows payloads t1) p.id = true := by
      rw [hasRowFor, List.any_eq_true]
      exact ⟨newEventRow p.id d t1, hmem, by simp [newEventRow]⟩
    simp [hc]
  have h2 := process_go_update_run t2 payloads
    ⟨0, 0, 0, 0, db0 ++ createdRows payloads t1⟩ hvalid hrow2
  have hinv : ∀ p ∈ payloads, ∀ d, parsedEvent p = some d →
      ∀ r ∈ db0 ++ createdRows payloads t1,
        r.api_payload_id = p.id → rowMatches r d = true := by
    intro p hp d hd r hr hpid
    rcases List.mem_append.mp hr with hr0 | hrc
    · exfalso
      have hro : hasRowFor db0 p.id = true := by
        rw [hasRowFor, List.any_eq_true]
        exact ⟨r, hr0, by simp [hpid]⟩
      rw [hfresh p hp] at hro
      exact Bool.false_ne_true hro
    · obtain ⟨q, hq, hqe⟩ := List.mem_filterMap.mp hrc
      rcases hpe : parsedEvent q with _ | dq
      · rw [hpe] at hqe
        simp at hqe
      · rw [hpe] at hqe
        simp at hqe
        subst hqe
        have hqp : q = p := List.inj_on_of_nodup_map hnodup hq hp hpid
        subst hqp
        rw [hpe] at hd
        injection hd with hdq
        subst hdq
        simp [rowMatches, newEventRow]
  have h3 := updateAll_derived_eq t2 payloads (db0 ++ createdRows payloads t1) hnodup hinv
  refine ⟨?_, ?_, ?_, ?_, ?_, ?_, ?_⟩ <;>
    simp [process_events, h1, h2, h3]

/-- C7: in any batch run, a payload failing validation is skipped with the
error count incremented and never aborts the run: the reported counts
satisfy errors = number of invalid payloads and created + updated =
processed = number of valid payloads, and every valid payload still ends
with a normalized row carrying its mapped fields. -/
theorem c7_process_isolates_errors (db0 : List Db.Event) (payloads : List Db.ApiPayload)
    (now : Nat) (hnodup : ((payloads.map fun p => p.id).Nodup)) :
    (process_events db0 payloads now).errors =
        (payloads.countP fun p => (parsedEvent p).isNone) ∧
    (process_events db0 payloads now).processed =
        (payloads.countP fun p => (parsedEvent p).isSome) ∧
    (process_events db0 payloads now).created +
        (process_events db0 payloads now).updated =
      (payloads.countP fun p => (parsedEvent p).isSome) ∧
    ∀ p ∈ payloads, ∀ d, parsedEvent p = some d →
      ∃ row ∈ (process_events db0 payloads now).events,
        row.api_payload_id = p.id ∧ rowMatches row d = true := by
  have hc := process_go_counts now payloads ⟨0, 0, 0, 0, db0⟩
  refine ⟨?_, ?_, ?_, ?_⟩
  · simpa [process_events] using hc.1
  · simpa [process_events] using hc.2.1
  · simpa [process_events] using hc.2.2
  · intro p hp d hd
    exact process_go_row_exists now payloads ⟨0, 0, 0, 0, db0⟩ p d hp hd hnodup

/-- C6 witness: two valid payloads against a fresh table — the first run
creates 2 / updates 0 / errors 0, the second creates 0 / updates 2 /
errors 0, and the derived fields agree row for row. -/
theorem c6_process_idempotent_witness :
    (process_events [] [payloadRowA, payloadRowB] 0).created = 2 ∧
    (process_events [] [payloadRowA, payloadRowB] 0).updated = 0 ∧
    (process_events [] [payloadRowA, payloadRowB] 0).errors = 0 ∧
    (process_events (process_events [] [payloadRowA, payloadRowB] 0).events
        [payloadRowA, payloadRowB] 1).created = 0 ∧
    (process_events (process_events [] [payloadRowA, payloadRowB] 0).events
        [payloadRowA, payloadRowB] 1).updated = 2 ∧
    (process_events (process_events [] [payloadRowA, payloadRowB] 0).events
        [payloadRowA, payloadRowB] 1).errors = 0 ∧
    (process_events (process_events [] [payloadRowA, payloadRowB] 0).events
        [payloadRowA, payloadRowB] 1).events.map derivedFields =
      (process_events [] [payloadRowA, payloadRowB] 0).events.map derivedFields :=
  c6_process_idempotent [] [payloadRowA, payloadRowB] 0 1
    (by decide) (by decide) (by decide)

/-- C7 witness: a batch of three payloads whose middle item is invalid —
one error, two processed, two created-plus-updated, and both valid
siblings end with rows carrying their mapped fields. -/
theorem c7_process_isolates_errors_witness :
    (process_events [] [payloadRowA, payloadRowBad, payloadRowB] 5).errors = 1 ∧
    (process_events [] [payloadRowA, payloadRowBad, payloadRowB] 5).processed = 2 ∧
    (process_events [] [payloadRowA, payloadRowBad, payloadRowB] 5).created +
        (process_events [] [payloadRowA, payloadRowBad, payloadRowB] 5).updated = 2 ∧
    ∀ p ∈ [payloadRowA, payloadRowBad, payloadRowB], ∀ d, parsedEvent p = some d →
      ∃ row ∈ (process_events [] [payloadRowA, payloadRowBad, payloadRowB] 5).events,
        row.api_payload_id = p.id ∧ rowMatches row d = true :=
  c7_process_isolates_errors [] [payloadRowA, payloadRowBad, payloadRowB] 5 (by decide)

end Bellweaver
